import Mathlib

/-!
# Verification of the evorl core (GAE, gradient wrappers, PBT exploit/explore)

Shallow embedding of the core of the `evorl` repository:

* `compute_gae` from `evorl/utils/toolkits.py`
* `gradient_update` / `agent_gradient_update` from `evorl/distributed/gradients.py`
* `exploit_and_explore`, `apply_hyperparams_to_workflow_state` and the warmup
  gate of `PBTWorkflow.step` from `evorl/agents/meta/pbt_distributed.py`
* the minibatch slicing of `PPOWorkflow` from `evorl/agents/ppo.py`
* `OnPolicyWorkflow.evaluate` from `evorl/workflows/rl_workflow.py`

Arrays are modelled as `List ℚ` (per environment column: every array operation
in the modelled code is elementwise along the trailing batch axes, so a single
column is tracked; rational numbers stand in for real-valued floats).  JAX PRNG
keys are modelled as natural numbers with injective split functions, and the
sampling primitives (`jax.random.uniform`, `jax.random.choice`) are abstract
function parameters constrained by hypotheses mirroring their contracts.
-/

namespace EvoRL

/-! ## Generic list helpers (Python / jax.numpy semantics) -/

/-- Python's `round` (banker's rounding: ties go to the even integer),
applied to an exact rational.  Used for `round(pop_size * ratio)`. -/
def pyRound (q : ℚ) : ℤ :=
  let f : ℤ := ⌊q⌋
  if q - f < 1/2 then f
  else if q - f > 1/2 then f + 1
  else if f % 2 = 0 then f else f + 1

/-- Python slicing `l[-k:]`.  For `k = 0` this is `l[0:] = l` (the `-0` pitfall);
for `k > 0` it is the last `k` elements (all of `l` when `k ≥ l.length`). -/
def pySliceLast (k : ℕ) (l : List α) : List α :=
  if k = 0 then l else l.drop (l.length - k)

/-- Python slicing `l[:k]` for `k ≥ 0`. -/
def pySliceTake (k : ℕ) (l : List α) : List α := l.take k

/-- `math.ceil(w / p)` on naturals (exact rational division, then ceiling). -/
def mathCeilDiv (w p : ℕ) : ℕ := (⌈(w : ℚ) / (p : ℚ)⌉).toNat

/-- Elementwise combination of four lists (length = the minimum length). -/
def zipWith4 (f : α → β → γ → δ → ε) : List α → List β → List γ → List δ → List ε
  | a :: as, b :: bs, c :: cs, d :: ds => f a b c d :: zipWith4 f as bs cs ds
  | _, _, _, _ => []

/-- `reshape(n, k)` after truncation: split a list into `n` chunks of `k`. -/
def chunks (n k : ℕ) (l : List α) : List (List α) :=
  match n with
  | 0 => []
  | n + 1 => l.take k :: chunks n k (l.drop k)

theorem headD_eq_getD_zero (l : List α) (d : α) : l.headD d = l.getD 0 d := by
  cases l <;> rfl

theorem zipWith4_length (f : α → β → γ → δ → ε) (as : List α) (bs : List β)
    (cs : List γ) (ds : List δ) :
    (zipWith4 f as bs cs ds).length =
      min (min as.length bs.length) (min cs.length ds.length) := by
  induction as generalizing bs cs ds with
  | nil => cases bs <;> cases cs <;> cases ds <;> simp [zipWith4]
  | cons a as ih =>
    cases bs <;> cases cs <;> cases ds <;> simp [zipWith4, ih]
    all_goals omega

theorem zipWith4_getD (f : α → β → γ → δ → ε) (as : List α) (bs : List β)
    (cs : List γ) (ds : List δ) (t : ℕ) (da : α) (db : β) (dc : γ) (dd : δ) (de : ε)
    (ha : t < as.length) (hb : t < bs.length) (hc : t < cs.length) (hd : t < ds.length) :
    (zipWith4 f as bs cs ds).getD t de =
      f (as.getD t da) (bs.getD t db) (cs.getD t dc) (ds.getD t dd) := by
  induction as generalizing bs cs ds t with
  | nil => simp at ha
  | cons a as ih =>
    cases bs with
    | nil => simp at hb
    | cons b bs =>
      cases cs with
      | nil => simp at hc
      | cons c cs =>
        cases ds with
        | nil => simp at hd
        | cons d ds =>
          cases t with
          | zero => rfl
          | succ t =>
            simp only [zipWith4, List.getD_cons_succ]
            exact ih bs cs ds t (by simpa using ha) (by simpa using hb)
              (by simpa using hc) (by simpa using hd)

theorem zipWith_getD (f : α → β → γ) (as : List α) (bs : List β) (t : ℕ)
    (da : α) (db : β) (dc : γ) (ha : t < as.length) (hb : t < bs.length) :
    (List.zipWith f as bs).getD t dc = f (as.getD t da) (bs.getD t db) := by
  induction as generalizing bs t with
  | nil => simp at ha
  | cons a as ih =>
    cases bs with
    | nil => simp at hb
    | cons b bs =>
      cases t with
      | zero => rfl
      | succ t =>
        simp only [List.zipWith_cons_cons, List.getD_cons_succ]
        exact ih bs t (by simpa using ha) (by simpa using hb)

theorem map_getD (f : α → β) (l : List α) (t : ℕ) (da : α) (db : β)
    (h : t < l.length) :
    (l.map f).getD t db = f (l.getD t da) := by
  induction l generalizing t with
  | nil => simp at h
  | cons a l ih =>
    cases t with
    | zero => rfl
    | succ t =>
      simp only [List.map_cons, List.getD_cons_succ]
      exact ih t (by simpa using h)

theorem getD_mem (l : List α) (t : ℕ) (d : α) (h : t < l.length) :
    l.getD t d ∈ l := by
  induction l generalizing t with
  | nil => simp at h
  | cons a l ih =>
    cases t with
    | zero => simp
    | succ t =>
      simp only [List.getD_cons_succ]
      exact List.mem_cons_of_mem a (ih t (by simpa using h))

theorem getD_set_self (l : List α) (i : ℕ) (a d : α) (h : i < l.length) :
    (l.set i a).getD i d = a := by
  induction l generalizing i with
  | nil => simp at h
  | cons b l ih =>
    cases i with
    | zero => rfl
    | succ i =>
      simp only [List.set_cons_succ, List.getD_cons_succ]
      exact ih i (by simpa using h)

theorem getD_set_ne (l : List α) (i j : ℕ) (a d : α) (h : i ≠ j) :
    (l.set i a).getD j d = l.getD j d := by
  induction l generalizing i j with
  | nil => simp
  | cons b l ih =>
    cases i with
    | zero =>
      cases j with
      | zero => exact absurd rfl h
      | succ j => rfl
    | succ i =>
      cases j with
      | zero => rfl
      | succ j =>
        simp only [List.set_cons_succ, List.getD_cons_succ]
        exact ih i j (by omega)

theorem zip_getD (as : List α) (bs : List β) (t : ℕ) (da : α) (db : β)
    (ha : t < as.length) (hb : t < bs.length) :
    (as.zip bs).getD t (da, db) = (as.getD t da, bs.getD t db) := by
  induction as generalizing bs t with
  | nil => simp at ha
  | cons a as ih =>
    cases bs with
    | nil => simp at hb
    | cons b bs =>
      cases t with
      | zero => rfl
      | succ t =>
        simp only [List.zip_cons_cons, List.getD_cons_succ]
        exact ih bs t (by simpa using ha) (by simpa using hb)

theorem getD_drop_one (l : List α) (t : ℕ) (d : α) :
    (l.drop 1).getD t d = l.getD (t + 1) d := by
  cases l <;> simp [List.getD]

theorem getD_dropLast (l : List α) (t : ℕ) (d : α) (h : t + 1 < l.length) :
    l.dropLast.getD t d = l.getD t d := by
  induction l generalizing t with
  | nil => simp at h
  | cons a l ih =>
    cases l with
    | nil => simp at h
    | cons b l =>
      cases t with
      | zero => rfl
      | succ t =>
        show ((a :: (b :: l).dropLast).getD (t + 1) d) = _
        simp only [List.getD_cons_succ]
        exact ih t (by simpa using h)

/-! ## GAE estimator (`compute_gae` in `evorl/utils/toolkits.py`) -/

/-- The reverse-time `jax.lax.scan` of `compute_gae`: carry `gae_{t+1}` starts at
`0` (`last_gae = zeros`), and for each `(delta_t, factor_t)` (processed from the
end of the trajectory) the body `_compute_gae` emits
`gae_t = delta_t + factor_t * gae_{t+1}`.  The list of emitted values is
returned in forward time order, exactly as `jax.lax.scan(..., reverse=True)`. -/
def compute_gae_scan : List ℚ → List ℚ → List ℚ
  | d :: ds, f :: fs =>
    let rest := compute_gae_scan ds fs
    (d + f * rest.headD 0) :: rest
  | _, _ => []

/-- `deltas = rewards + discount * (1 - dones) * values[1:] - values[:-1]`
(elementwise). -/
def gae_deltas (dones rewards values : List ℚ) (discount : ℚ) : List ℚ :=
  zipWith4 (fun r d v1 v0 => r + discount * (1 - d) * v1 - v0)
    rewards dones (values.drop 1) values.dropLast

/-- The per-step decay factors `discount * gae_lambda * (1 - dones)` fed
to the reverse scan. -/
def gae_factors (dones : List ℚ) (gae_lambda discount : ℚ) : List ℚ :=
  dones.map (fun d => discount * gae_lambda * (1 - d))

/-- The advantages: the reverse scan over `(deltas, factors)`. -/
def gae_advantages (dones rewards values : List ℚ) (gae_lambda discount : ℚ) : List ℚ :=
  compute_gae_scan (gae_deltas dones rewards values discount)
    (gae_factors dones gae_lambda discount)

/-- `compute_gae(dones, rewards, values, gae_lambda, discount)`: the shape
assertion `chex.assert_shape(values, (T+1, ...))` is modelled by returning
`none` (an `AssertionError` raised before any output is produced).  Otherwise
the reverse scan computes the advantages and
`lambda_retruns = advantages + values[:-1]` (the source's spelling).
Returns `(lambda_retruns, advantages)` (both stop-gradient, a no-op here). -/
def compute_gae (dones rewards values : List ℚ)
    (gae_lambda : ℚ := 1) (discount : ℚ := 99/100) : Option (List ℚ × List ℚ) :=
  if values.length = rewards.length + 1 then
    some (List.zipWith (· + ·) (gae_advantages dones rewards values gae_lambda discount)
            values.dropLast,
          gae_advantages dones rewards values gae_lambda discount)
  else
    none

theorem compute_gae_scan_length (ds fs : List ℚ) :
    (compute_gae_scan ds fs).length = min ds.length fs.length := by
  induction ds generalizing fs with
  | nil => cases fs <;> simp [compute_gae_scan]
  | cons d ds ih =>
    cases fs with
    | nil => simp [compute_gae_scan]
    | cons f fs => simp [compute_gae_scan, ih]; omega

theorem compute_gae_scan_getD (ds fs : List ℚ) (t : ℕ)
    (h : t < ds.length) (hlen : ds.length = fs.length) :
    (compute_gae_scan ds fs).getD t 0 =
      ds.getD t 0 + fs.getD t 0 * (compute_gae_scan ds fs).getD (t + 1) 0 := by
  induction ds generalizing fs t with
  | nil => simp at h
  | cons d ds ih =>
    cases fs with
    | nil => simp at hlen
    | cons f fs =>
      cases t with
      | zero =>
        simp only [compute_gae_scan, List.getD_cons_zero, List.getD_cons_succ]
        rw [headD_eq_getD_zero]
      | succ t =>
        simp only [compute_gae_scan, List.getD_cons_succ]
        exact ih fs t (by simpa using h) (by simpa using hlen)

/-! ## Gradient update wrappers (`evorl/distributed/gradients.py`)

Parameters, gradients and optimizer updates are modelled as `ℚ` (one
coordinate of the parameter pytree).  `jax.value_and_grad(loss_fn)` is
modelled by an abstract function returning the pair `(value, gradient)`;
with `pmap_axis_name = None`, `loss_and_pgrad` returns it unchanged.
`optax.apply_updates(params, updates)` adds the update to the parameters.
-/

/-- An `optax.GradientTransformation`: `update(grads, opt_state)` returns
`(params_update, new_opt_state)`. -/
structure Optimizer (S : Type) where
  update : ℚ → S → ℚ × S

/-- `optax.apply_updates` on a single parameter leaf. -/
def apply_updates (params update : ℚ) : ℚ := params + update

/-- A flax-struct `AgentState` with a `params` field plus the remaining
fields (obs preprocessor state, ...) bundled opaquely. -/
structure AgentState (R : Type) where
  params : ℚ
  obs_preprocessor_state : R

/-- `agent_state.replace(params=...)`: flax's functional record update; it
returns a new structure and leaves the receiver untouched. -/
def AgentState.replace_params (a : AgentState R) (p : ℚ) : AgentState R :=
  { a with params := p }

/-- The function `f(optimizer_state, params, *args, **kwargs)` returned by
`gradient_update(loss_fn, optimizer, None, has_aux)`.  `value_and_grad`
models `jax.value_and_grad(loss_fn)`; `args0`, `batch` and `key` are the
positional arguments `*args`.  Note the source computes
`loss_and_pgrad_fn(*args, **kwargs)` — the `params` argument is never
passed to it — and applies the update to `args[0]`. -/
def gradient_update (value_and_grad : ℚ → B → K → V × ℚ)
    (optimizer : Optimizer S) :
    S → ℚ → ℚ → B → K → V × ℚ × S :=
  fun optimizer_state _params args0 batch key =>
    let vg := value_and_grad args0 batch key
    let upd := optimizer.update vg.2 optimizer_state
    let params := apply_updates args0 upd.1
    (vg.1, params, upd.2)

/-- The function `f(opt_state, agent_state, *args, **kwargs)` returned by
`agent_gradient_update(loss_fn, optimizer, None, has_aux)`.
`value_and_grad` models `jax.value_and_grad(_loss_fn)` where
`_loss_fn(params, agent_state, sample_batch, key)` rebinds the params;
the gradient is with respect to the first argument.  The source line
`agent_state.replace(params=params)` is evaluated but its result is
DISCARDED (not rebound), exactly as in the Python code. -/
def agent_gradient_update (value_and_grad : ℚ → AgentState R → B → K → V × ℚ)
    (optimizer : Optimizer S) :
    S → AgentState R → B → K → V × AgentState R × S :=
  fun opt_state agent_state sample_batch key =>
    let vg := value_and_grad agent_state.params agent_state sample_batch key
    let upd := optimizer.update vg.2 opt_state
    let params := apply_updates agent_state.params upd.1
    let _discarded := agent_state.replace_params params
    (vg.1, agent_state, upd.2)

/-! ## PBT data model (`evorl/agents/meta/pbt_distributed.py`)

The population hyperparameters are a `PyTreeDict(lr=...)` with the single
key `lr`; per member this is one rational.  A member's `TrainingState`
(`workflow_state`) carries an `opt_state` of type
`optax.InjectStatefulHyperparamsState` (whose `hyperparams` dict holds the
single entry `learning_rate`) plus the remaining fields (agent params, env
state, key, metrics), bundled opaquely.  JAX PRNG keys are naturals;
`jax.random.split` is modelled by injective arithmetic splits, and
`jax.random.uniform` / `jax.random.choice` are abstract parameters.
-/

/-- `optax.InjectStatefulHyperparamsState`: `hyperparams` is the dict
`{learning_rate: ...}`; `hyperparams_states` and `inner_state` (Adam's
momentum buffers) are opaque payloads. -/
structure InjectStatefulHyperparamsState (H I : Type) where
  count : ℕ
  learning_rate : ℚ
  hyperparams_states : H
  inner_state : I

/-- A member's workflow (training) state: the `opt_state` plus all the
other fields (`agent_state`, `env_state`, `key`, `metrics`), opaque. -/
structure WorkflowState (H I E : Type) where
  opt_state : InjectStatefulHyperparamsState H I
  rest : E

/-- The population hyperparameters of one member: `PyTreeDict(lr=...)`. -/
structure HyperParamsDict where
  lr : ℚ

/-- `deepcopy_InjectStatefulHyperparamsState`: rebuilds the NamedTuple,
deep-copying the `hyperparams` dict and sharing `count`,
`hyperparams_states` and `inner_state` (all values, not references, in
this pure model). -/
def deepcopy_InjectStatefulHyperparamsState
    (s : InjectStatefulHyperparamsState H I) : InjectStatefulHyperparamsState H I :=
  ⟨s.count, s.learning_rate, s.hyperparams_states, s.inner_state⟩

/-- `apply_hyperparams_to_workflow_state(hyperparams, workflow_state)`:
copy the opt state and overwrite `hyperparams['learning_rate']` with
`hyperparams.lr`; every other field of the workflow state is kept. -/
def apply_hyperparams_to_workflow_state (hyperparams : HyperParamsDict)
    (workflow_state : WorkflowState H I E) : WorkflowState H I E :=
  let opt_state := deepcopy_InjectStatefulHyperparamsState workflow_state.opt_state
  let opt_state := { opt_state with learning_rate := hyperparams.lr }
  { workflow_state with opt_state := opt_state }

/-- `jax.random.split(key)` (into two keys), modelled injectively. -/
def prng_split2 (key : ℕ) : ℕ × ℕ := (2 * key + 1, 2 * key + 2)

/-- `jax.random.split(key, 3)`, modelled injectively. -/
def prng_split3 (key : ℕ) : ℕ × ℕ × ℕ := (3 * key + 1, 3 * key + 2, 3 * key + 3)

/-- `jax.random.split(key, n)`, modelled injectively. -/
def prng_splitN (key : ℕ) (n : ℕ) : List ℕ :=
  (List.range n).map (fun i => (key + 1) * (n + 1) + i)

/-- The PBT scheduler configuration fields used by `exploit_and_explore`
and the warmup gate (`perturb_factor` is the dict entry for `lr`, the only
hyperparameter). -/
structure PBTConfig where
  pop_size : ℕ
  bottom_ratio : ℚ
  top_ratio : ℚ
  perturb_factor : ℚ
  warmup_steps : ℕ
  per_iter_workflow_steps : ℕ

/-- Stable insertion of index `i` into an index list sorted by the values
of `l`: `i` (which arrives later in original order) goes after every equal
value, giving `jnp.argsort`'s stable order. -/
def argsortInsert (l : List ℚ) (i : ℕ) : List ℕ → List ℕ
  | [] => [i]
  | j :: js => if l.getD j 0 ≤ l.getD i 0 then j :: argsortInsert l i js else i :: j :: js

/-- `jnp.argsort(l)`: the indices of `l` sorted by value, ascending and
stable (JAX sorts are stable). -/
def argsort (l : List ℚ) : List ℕ :=
  (List.range l.length).foldl (fun acc i => argsortInsert l i acc) []

/-- `_read(indices, pop)`: the gather `x[indices]` on each leaf.  All call
sites use in-range indices; `d` is the value for the (unused) out-of-range
case. -/
def gather_read (indices : List ℕ) (pop : List α) (d : α) : List α :=
  indices.map (fun i => pop.getD i d)

/-- `_write(indices, pop, new)`: the scatter `x.at[indices].set(y)` on
each leaf — position `indices[k]` receives `new[k]`. -/
def scatter_write (indices : List ℕ) (pop : List α) (new : List α) : List α :=
  (indices.zip new).foldl (fun acc iv => acc.set iv.1 iv.2) pop

/-- `_exploit_and_explore_fn(key, top, top_wf_state)`: perturb each copied
hyperparameter (`lr` is the only one) by
`top[hp] * (1 + jax.random.uniform(key, minval=-pf, maxval=pf))` and
re-inject it into the copied workflow state.  `uniform key pf` models the
draw of `jax.random.uniform(key, minval=-pf, maxval=pf)`. -/
def exploit_and_explore_fn (uniform : ℕ → ℚ → ℚ) (perturb_factor : ℚ)
    (key : ℕ) (top : HyperParamsDict) (top_wf_state : WorkflowState H I E) :
    HyperParamsDict × WorkflowState H I E :=
  let new : HyperParamsDict := ⟨top.lr * (1 + uniform key perturb_factor)⟩
  (new, apply_hyperparams_to_workflow_state new top_wf_state)

/-- `exploit_and_explore(config, key, pop_episode_returns, pop,
pop_workflow_state)`.  `choice key candidates n` models
`jax.random.choice(key, candidates, (n,))` (with replacement); `dflt` is
the unused out-of-range gather value.  Note `tops_indices =
indices[-tops_num:]`, which for `tops_num = 0` is the WHOLE index list
(Python `-0` slicing), modelled faithfully by `pySliceLast`. -/
def exploit_and_explore (config : PBTConfig) (uniform : ℕ → ℚ → ℚ)
    (choice : ℕ → List ℕ → ℕ → List ℕ) (key : ℕ)
    (pop_episode_returns : List ℚ) (pop : List HyperParamsDict)
    (pop_workflow_state : List (WorkflowState H I E)) (dflt : WorkflowState H I E) :
    List HyperParamsDict × List (WorkflowState H I E) :=
  let bottoms_num := (pyRound ((config.pop_size : ℚ) * config.bottom_ratio)).toNat
  let tops_num := (pyRound ((config.pop_size : ℚ) * config.top_ratio)).toNat
  let indices := argsort pop_episode_returns
  let bottoms_indices := pySliceTake bottoms_num indices
  let tops_indices := pySliceLast tops_num indices
  let ks := prng_split3 key
  let tops_choice_indices := choice ks.2.1 tops_indices bottoms_indices.length
  let explore_keys := prng_splitN ks.2.2 bottoms_indices.length
  let donors_hp := gather_read tops_choice_indices pop ⟨0⟩
  let donors_wf := gather_read tops_choice_indices pop_workflow_state dflt
  let news := List.zipWith
    (fun k dw => exploit_and_explore_fn uniform config.perturb_factor k dw.1 dw.2)
    explore_keys (donors_hp.zip donors_wf)
  (scatter_write bottoms_indices pop (news.map Prod.fst),
   scatter_write bottoms_indices pop_workflow_state (news.map Prod.snd))

/-- The warmup section of `PBTWorkflow.step`: split the state key, then
`jax.lax.cond(iterations + 1 <= math.ceil(warmup_steps /
per_iter_workflow_steps), _dummy_fn, _exploit_and_explore, ...)` — the
true branch `_dummy_fn` returns `pop` and `pop_workflow_state` unchanged,
the false branch runs `exploit_and_explore` with the second sub-key. -/
def pbt_warmup_or_exploit (config : PBTConfig) (uniform : ℕ → ℚ → ℚ)
    (choice : ℕ → List ℕ → ℕ → List ℕ) (iterations : ℕ) (key : ℕ)
    (pop_episode_returns : List ℚ) (pop : List HyperParamsDict)
    (pop_workflow_state : List (WorkflowState H I E)) (dflt : WorkflowState H I E) :
    List HyperParamsDict × List (WorkflowState H I E) :=
  let ks := prng_split2 key
  if iterations + 1 ≤ mathCeilDiv config.warmup_steps config.per_iter_workflow_steps
  then (pop, pop_workflow_state)
  else exploit_and_explore config uniform choice ks.2
    pop_episode_returns pop pop_workflow_state dflt

/-! ## PPO workflow pieces (`evorl/agents/ppo.py`) -/

/-- The PPO config fields used by the minibatch logic. -/
structure PPOConfig where
  rollout_length : ℕ
  num_envs : ℕ
  minibatch_size : ℕ

/-- Attribute names looked up on the PPO config by the code under
scrutiny; `minibath_size` is the misspelling that appears in the warning
f-string of `_build_from_config`. -/
inductive ConfigAttr where
  | rollout_length
  | num_envs
  | minibatch_size
  | minibath_size
deriving DecidableEq

/-- Struct-mode OmegaConf attribute access on the PPO config (Hydra
composes configs in struct mode): declared keys resolve to their values;
any other attribute raises `ConfigAttributeError`, modelled as `none`. -/
def ppo_config_attr (c : PPOConfig) : ConfigAttr → Option ℕ
  | .rollout_length => some c.rollout_length
  | .num_envs => some c.num_envs
  | .minibatch_size => some c.minibatch_size
  | .minibath_size => none

/-- Errors surfaced by the modelled construction path. -/
inductive BuildError where
  | configAttributeError (attr : ConfigAttr)
deriving DecidableEq

/-- The divisibility check at the end of `PPOWorkflow._build_from_config`:
if `num_envs * rollout_length` is not divisible by `minibatch_size` the
code logs a warning whose f-string reads `config.minibath_size` (a
misspelling of `minibatch_size`); evaluating that attribute access on a
struct-mode config raises before the warning is emitted. -/
def ppo_build_divisibility_check (c : PPOConfig) : Except BuildError Unit :=
  let one_step_rollout_steps := c.num_envs * c.rollout_length
  if one_step_rollout_steps % c.minibatch_size ≠ 0 then
    match ppo_config_attr c ConfigAttr.minibath_size with
    | some _ => Except.ok ()
    | none => Except.error (BuildError.configAttributeError ConfigAttr.minibath_size)
  else Except.ok ()

/-- `num_minibatches = rollout_length * num_envs // minibatch_size`. -/
def ppo_num_minibatches (c : PPOConfig) : ℕ :=
  c.rollout_length * c.num_envs / c.minibatch_size

/-- `_get_shuffled_minibatch(perm_key, x)`: permute the flattened batch
(`perm` models `jax.random.permutation(perm_key, ·)`), truncate to
`num_minibatches * minibatch_size` elements, and reshape into
`num_minibatches` rows of `minibatch_size`. -/
def get_shuffled_minibatch (perm : List α → List α) (c : PPOConfig) (x : List α) :
    List (List α) :=
  chunks (ppo_num_minibatches c) c.minibatch_size
    ((perm x).take (ppo_num_minibatches c * c.minibatch_size))

/-! ## On-policy workflow state (`evorl/workflows/rl_workflow.py`) -/

/-- The `State` pytree held by `OnPolicyWorkflow` (field types opaque
except the PRNG key). -/
structure OnPolicyState (M A E O : Type) where
  key : ℕ
  metrics : M
  agent_state : A
  env_state : E
  opt_state : O

/-- The `EvaluateMetric` produced by `OnPolicyWorkflow.evaluate` (means of
the raw per-episode metrics). -/
structure EvaluateMetric where
  episode_returns : ℚ
  episode_lengths : ℚ

/-- Mean of a list of rationals. -/
def list_mean (l : List ℚ) : ℚ := l.sum / l.length

/-- `OnPolicyWorkflow.evaluate(state)`: split `state.key` into
`(key, eval_key)`, run the external `evaluator.evaluate(state.agent_state,
num_episodes=config.eval_episodes, key=eval_key)` (modelled as a pure
function returning the per-episode returns and lengths), average them
(`all_reduce` with `pmap_axis_name=None` is the identity), and return the
metrics together with `state.replace(key=key)`. -/
def on_policy_evaluate (evaluator_evaluate : A → ℕ → ℕ → List ℚ × List ℚ)
    (eval_episodes : ℕ) (state : OnPolicyState M A E O) :
    EvaluateMetric × OnPolicyState M A E O :=
  let ks := prng_split2 state.key
  let raw := evaluator_evaluate state.agent_state eval_episodes ks.2
  let eval_metrics : EvaluateMetric := ⟨list_mean raw.1, list_mean raw.2⟩
  (eval_metrics, { state with key := ks.1 })

theorem scatter_write_length (indices : List ℕ) (pop new : List α) :
    (scatter_write indices pop new).length = pop.length := by
  rw [scatter_write]
  generalize indices.zip new = l
  induction l generalizing pop with
  | nil => rfl
  | cons a l ih => simp only [List.foldl_cons]; rw [ih, List.length_set]

theorem argsortInsert_perm (l : List ℚ) (i : ℕ) (acc : List ℕ) :
    (argsortInsert l i acc).Perm (i :: acc) := by
  induction acc with
  | nil => exact List.Perm.refl _
  | cons j js ih =>
    by_cases h : l.getD j 0 ≤ l.getD i 0
    · simp only [argsortInsert, if_pos h]
      exact (ih.cons j).trans (List.Perm.swap i j js)
    · simp only [argsortInsert, if_neg h]
      exact List.Perm.refl _

theorem argsort_foldl_perm (l : List ℚ) (xs acc : List ℕ) :
    (List.foldl (fun a i => argsortInsert l i a) acc xs).Perm (xs ++ acc) := by
  induction xs generalizing acc with
  | nil => simp
  | cons x xs ih =>
    simp only [List.foldl_cons, List.cons_append]
    exact ((ih (argsortInsert l x acc)).trans
      (List.Perm.append_left xs (argsortInsert_perm l x acc))).trans
      List.perm_middle

/-- `jnp.argsort` returns a permutation of the index range. -/
theorem argsort_perm (l : List ℚ) :
    (argsort l).Perm (List.range l.length) := by
  simpa using argsort_foldl_perm l (List.range l.length) []

theorem argsortInsert_sorted (l : List ℚ) (i : ℕ) (acc : List ℕ)
    (h : acc.Pairwise (fun a b => l.getD a 0 ≤ l.getD b 0)) :
    (argsortInsert l i acc).Pairwise (fun a b => l.getD a 0 ≤ l.getD b 0) := by
  induction acc with
  | nil => simp [argsortInsert]
  | cons j js ih =>
    rw [List.pairwise_cons] at h
    by_cases hc : l.getD j 0 ≤ l.getD i 0
    · simp only [argsortInsert, if_pos hc]
      rw [List.pairwise_cons]
      refine ⟨?_, ih h.2⟩
      intro b hb
      rcases List.mem_cons.mp ((argsortInsert_perm l i js).mem_iff.mp hb) with hb2 | hb2
      · exact hb2 ▸ hc
      · exact h.1 b hb2
    · simp only [argsortInsert, if_neg hc]
      rw [List.pairwise_cons]
      refine ⟨?_, List.pairwise_cons.mpr h⟩
      intro b hb
      rcases List.mem_cons.mp hb with hb2 | hb2
      · exact hb2 ▸ le_of_not_le hc
      · exact le_trans (le_of_not_le hc) (h.1 b hb2)

/-- `jnp.argsort` sorts the indices by fitness value, ascending. -/
theorem argsort_sorted (l : List ℚ) :
    (argsort l).Pairwise (fun a b => l.getD a 0 ≤ l.getD b 0) := by
  rw [argsort]
  generalize List.range l.length = xs
  have hgen : ∀ (xs acc : List ℕ),
      acc.Pairwise (fun a b => l.getD a 0 ≤ l.getD b 0) →
      (List.foldl (fun a i => argsortInsert l i a) acc xs).Pairwise
        (fun a b => l.getD a 0 ≤ l.getD b 0) := by
    intro xs
    induction xs with
    | nil => intro acc h; exact h
    | cons x xs ih =>
      intro acc h
      exact ih _ (argsortInsert_sorted l x acc h)
  exact hgen xs [] (by simp)

theorem scatter_write_getD_not_mem (indices : List ℕ) (pop new : List α) (i : ℕ)
    (d : α) (h : i ∉ indices) :
    (scatter_write indices pop new).getD i d = pop.getD i d := by
  induction indices generalizing pop new with
  | nil => rfl
  | cons a idx ih =>
    cases new with
    | nil => rfl
    | cons b ns =>
      simp only [scatter_write, List.zip_cons_cons, List.foldl_cons]
      have hrec := ih (pop.set a b) ns (fun hmem => h (List.mem_cons_of_mem a hmem))
      rw [scatter_write] at hrec
      have hne : a ≠ i := fun hai => h (hai ▸ List.mem_cons_self a idx)
      rw [hrec, getD_set_ne _ _ _ _ _ hne]

theorem scatter_write_getD_mem (indices : List ℕ) (pop new : List α) (j : ℕ) (d : α)
    (hnd : indices.Nodup) (hlen : new.length = indices.length)
    (hj : j < indices.length) (hlt : indices.getD j 0 < pop.length) :
    (scatter_write indices pop new).getD (indices.getD j 0) d = new.getD j d := by
  induction indices generalizing pop new j with
  | nil => simp at hj
  | cons a idx ih =>
    cases new with
    | nil => simp at hlen
    | cons b ns =>
      simp only [scatter_write, List.zip_cons_cons, List.foldl_cons]
      rw [List.nodup_cons] at hnd
      cases j with
      | zero =>
        simp only [List.getD_cons_zero]
        have hout := scatter_write_getD_not_mem idx (pop.set a b) ns a d hnd.1
        rw [scatter_write] at hout
        rw [hout, getD_set_self _ _ _ _ (by simpa using hlt)]
      | succ j =>
        simp only [List.getD_cons_succ]
        have hrec := ih (pop.set a b) ns j hnd.2 (by simpa using hlen)
          (by simpa using hj) (by simpa using hlt)
        rw [scatter_write] at hrec
        exact hrec

/-- The local `bottoms_num = round(pop_size * bottom_ratio)` of
`exploit_and_explore`. -/
def ee_bottoms_num (config : PBTConfig) : ℕ :=
  (pyRound ((config.pop_size : ℚ) * config.bottom_ratio)).toNat

/-- The local `tops_num = round(pop_size * top_ratio)` of
`exploit_and_explore`. -/
def ee_tops_num (config : PBTConfig) : ℕ :=
  (pyRound ((config.pop_size : ℚ) * config.top_ratio)).toNat

/-- The local `bottoms_indices = indices[:bottoms_num]` of
`exploit_and_explore`. -/
def ee_bottoms_indices (config : PBTConfig) (rets : List ℚ) : List ℕ :=
  pySliceTake (ee_bottoms_num config) (argsort rets)

/-- The local `tops_indices = indices[-tops_num:]` of `exploit_and_explore`. -/
def ee_tops_indices (config : PBTConfig) (rets : List ℚ) : List ℕ :=
  pySliceLast (ee_tops_num config) (argsort rets)

/-- The local `tops_choice_indices` of `exploit_and_explore`. -/
def ee_choice_indices (config : PBTConfig) (choice : ℕ → List ℕ → ℕ → List ℕ)
    (key : ℕ) (rets : List ℚ) : List ℕ :=
  choice (prng_split3 key).2.1 (ee_tops_indices config rets)
    (ee_bottoms_indices config rets).length

/-- The explore sub-keys `jax.random.split(explore_key, len(bottoms_indices))`
of `exploit_and_explore`. -/
def ee_explore_keys (config : PBTConfig) (key : ℕ) (rets : List ℚ) : List ℕ :=
  prng_splitN (prng_split3 key).2.2 (ee_bottoms_indices config rets).length

/-- The vmapped `_exploit_and_explore_fn` outputs
`(new_bottoms, new_bottoms_wf_state)` of `exploit_and_explore`, paired. -/
def ee_news (config : PBTConfig) (uniform : ℕ → ℚ → ℚ)
    (choice : ℕ → List ℕ → ℕ → List ℕ) (key : ℕ) (rets : List ℚ)
    (pop : List HyperParamsDict) (wf : List (WorkflowState H I E))
    (dflt : WorkflowState H I E) : List (HyperParamsDict × WorkflowState H I E) :=
  List.zipWith
    (fun k dw => exploit_and_explore_fn uniform config.perturb_factor k dw.1 dw.2)
    (ee_explore_keys config key rets)
    ((gather_read (ee_choice_indices config choice key rets) pop ⟨0⟩).zip
      (gather_read (ee_choice_indices config choice key rets) wf dflt))

/-- `exploit_and_explore` written out through its named intermediates
(definitional: both sides unfold to the same term). -/
theorem exploit_and_explore_eq (config : PBTConfig) (uniform : ℕ → ℚ → ℚ)
    (choice : ℕ → List ℕ → ℕ → List ℕ) (key : ℕ) (rets : List ℚ)
    (pop : List HyperParamsDict) (wf : List (WorkflowState H I E))
    (dflt : WorkflowState H I E) :
    exploit_and_explore config uniform choice key rets pop wf dflt
    = (scatter_write (ee_bottoms_indices config rets) pop
         ((ee_news config uniform choice key rets pop wf dflt).map Prod.fst),
       scatter_write (ee_bottoms_indices config rets) wf
         ((ee_news config uniform choice key rets pop wf dflt).map Prod.snd)) := rfl

theorem exploit_and_explore_length (config : PBTConfig) (uniform : ℕ → ℚ → ℚ)
    (choice : ℕ → List ℕ → ℕ → List ℕ) (key : ℕ) (rets : List ℚ)
    (pop : List HyperParamsDict) (wf : List (WorkflowState H I E))
    (dflt : WorkflowState H I E) :
    (exploit_and_explore config uniform choice key rets pop wf dflt).1.length = pop.length
    ∧ (exploit_and_explore config uniform choice key rets pop wf dflt).2.length
        = wf.length := by
  constructor <;> simp [exploit_and_explore, scatter_write_length]

/-! ## Claims -/

/-- C9: the function `f` returned by `gradient_update` ignores its second
positional argument (`params`): for any two values of that argument and
identical remaining inputs the results coincide, because the loss, the
gradient and the parameter update are all computed from `args[0]`. -/
theorem gradient_update_ignores_params_arg
    (value_and_grad : ℚ → B → K → V × ℚ) (optimizer : Optimizer S)
    (opt_state : S) (p1 p2 args0 : ℚ) (batch : B) (key : K) :
    gradient_update value_and_grad optimizer opt_state p1 args0 batch key =
      gradient_update value_and_grad optimizer opt_state p2 args0 batch key := rfl

/-- C1 (code bug): `agent_gradient_update` computes the updated parameters
with `optax.apply_updates` but the result of `agent_state.replace(params=params)`
is discarded, so the returned agent state still carries the INPUT
parameters.  Here: loss `p²` with gradient `2p` at `p = 3`, optimizer
update `-g` (plain gradient descent, counting steps), so the updated
parameters would be `3 - 6 = -3`, yet the returned agent state has
`params = 3`. -/
theorem agent_gradient_update_returns_stale_params :
    (agent_gradient_update (R := ℚ) (B := ℚ) (K := ℚ)
        (fun p _ _ _ => (p * p, 2 * p)) ⟨fun g s => (-g, s + 1)⟩
        0 ⟨3, 0⟩ 0 0).2.1.params = 3
    ∧ apply_updates 3 (-(2 * 3) : ℚ) ≠ 3 := by
  constructor
  · rfl
  · norm_num [apply_updates]

/-- C8: calling `compute_gae` with a `values` array whose leading length
is not `T + 1` fails the shape assertion before any output is produced
(no silent truncation or padding). -/
theorem compute_gae_shape_guard (dones rewards values : List ℚ)
    (gae_lambda discount : ℚ) (h : values.length ≠ rewards.length + 1) :
    compute_gae dones rewards values gae_lambda discount = none := by
  simp [compute_gae, h]

/-- Witness for C8: `values` of length `T = 3` (instead of `T + 1 = 4`). -/
theorem compute_gae_shape_guard_witness :
    compute_gae [0, 0, 0] [1, 1, 1] [0, 0, 0] 1 1 = none :=
  compute_gae_shape_guard [0, 0, 0] [1, 1, 1] [0, 0, 0] 1 1 (by decide)

/-- C4 (code bug): with `rollout_length = 3`, `num_envs = 1`,
`minibatch_size = 2` the product `3` is not divisible by `2`; the warning
branch of `PPOWorkflow._build_from_config` evaluates the misspelled
attribute `config.minibath_size`, which raises under struct-mode (Hydra)
configs instead of logging the warning.  The minibatch slicing itself
would proceed on the truncated set: `floor(3 / 2) = 1` minibatch of size
`2`, remainder dropped. -/
theorem ppo_build_warning_typo_eval :
    ppo_build_divisibility_check ⟨3, 1, 2⟩ =
      Except.error (BuildError.configAttributeError ConfigAttr.minibath_size)
    ∧ ppo_num_minibatches ⟨3, 1, 2⟩ = 1
    ∧ get_shuffled_minibatch id ⟨3, 1, 2⟩ [10, 20, 30] = [[10, 20]] :=
  ⟨rfl, rfl, rfl⟩

/-- C10: `OnPolicyWorkflow.evaluate` returns a state in which only the
`key` field changed (to the first output of splitting the input key);
`metrics`, `agent_state`, `env_state` and `opt_state` are returned exactly
equal to their input values. -/
theorem on_policy_evaluate_frame (evaluator_evaluate : A → ℕ → ℕ → List ℚ × List ℚ)
    (eval_episodes : ℕ) (state : OnPolicyState M A E O) :
    (on_policy_evaluate evaluator_evaluate eval_episodes state).2 =
      { state with key := (prng_split2 state.key).1 }
    ∧ (on_policy_evaluate evaluator_evaluate eval_episodes state).2.metrics = state.metrics
    ∧ (on_policy_evaluate evaluator_evaluate eval_episodes state).2.agent_state = state.agent_state
    ∧ (on_policy_evaluate evaluator_evaluate eval_episodes state).2.env_state = state.env_state
    ∧ (on_policy_evaluate evaluator_evaluate eval_episodes state).2.opt_state = state.opt_state :=
  ⟨rfl, rfl, rfl, rfl, rfl⟩

/-- C2: `compute_gae` computes the advantages by the backward recursion
`advantage[t] = delta[t] + discount*gae_lambda*(1-done[t])*advantage[t+1]`
with `advantage[T] = 0` (the out-of-range `getD` default), where
`delta[t] = reward[t] + discount*(1-done[t])*value[t+1] - value[t]`, and
`target[t] = advantage[t] + value[t]`; in particular for
`rewards=[1,1,1]`, `values=[0,0,0,0]`, `dones=[0,0,0]`, `gae_lambda=1`,
`discount=1` it returns `target=[3,2,1]` and `advantage=[3,2,1]`. -/
theorem compute_gae_backward_recursion :
    (∀ (dones rewards values : List ℚ) (gae_lambda discount : ℚ) (t : ℕ),
      dones.length = rewards.length →
      values.length = rewards.length + 1 →
      t < rewards.length →
      ((compute_gae dones rewards values gae_lambda discount).isSome = true
      ∧ ((compute_gae dones rewards values gae_lambda discount).getD ([], [])).2.length
          = rewards.length
      ∧ ((compute_gae dones rewards values gae_lambda discount).getD ([], [])).2.getD t 0
          = (rewards.getD t 0
              + discount * (1 - dones.getD t 0) * values.getD (t + 1) 0
              - values.getD t 0)
            + discount * gae_lambda * (1 - dones.getD t 0)
              * ((compute_gae dones rewards values gae_lambda discount).getD ([], [])).2.getD
                  (t + 1) 0
      ∧ ((compute_gae dones rewards values gae_lambda discount).getD ([], [])).1.getD t 0
          = ((compute_gae dones rewards values gae_lambda discount).getD ([], [])).2.getD t 0
            + values.getD t 0))
    ∧ compute_gae [0, 0, 0] [1, 1, 1] [0, 0, 0, 0] 1 1 = some ([3, 2, 1], [3, 2, 1]) := by
  constructor
  · intro dones rewards values gae_lambda discount t hd hv ht
    have hdrop : (values.drop 1).length = rewards.length := by simp [hv]
    have hlast : values.dropLast.length = rewards.length := by simp [hv]
    have hD : (gae_deltas dones rewards values discount).length = rewards.length := by
      rw [gae_deltas, zipWith4_length, hdrop, hlast, hd]
      simp
    have hF : (gae_factors dones gae_lambda discount).length = rewards.length := by
      simp [gae_factors, hd]
    have hA : (gae_advantages dones rewards values gae_lambda discount).length
        = rewards.length := by
      rw [gae_advantages, compute_gae_scan_length, hD, hF]
      simp
    simp only [compute_gae, if_pos hv, Option.isSome_some, Option.getD_some]
    refine ⟨trivial, hA, ?_, ?_⟩
    · rw [gae_advantages,
        compute_gae_scan_getD _ _ t (by omega) (by rw [hD, hF]),
        gae_deltas, zipWith4_getD _ _ _ _ _ t 0 0 0 0 0 ht (by omega) (by omega) (by omega),
        getD_drop_one, getD_dropLast values t 0 (by omega),
        gae_factors, map_getD _ _ t 0 0 (by omega)]
    · rw [zipWith_getD _ _ _ t 0 0 0 (by omega) (by omega),
        getD_dropLast values t 0 (by omega)]
  · norm_num [compute_gae, gae_advantages, gae_deltas, gae_factors,
      compute_gae_scan, zipWith4]

/-- Witness for C2: a one-step trajectory with `reward = [2]`,
`values = [1, 5]`, `done = [0]`, `gae_lambda = 1`, `discount = 1`; the
recursion at `t = 0` instantiated from the theorem. -/
theorem compute_gae_backward_recursion_witness :
    (compute_gae [0] [2] [1, 5] 1 1).isSome = true
    ∧ ((compute_gae [0] [2] [1, 5] 1 1).getD ([], [])).2.length = List.length [(2 : ℚ)]
    ∧ ((compute_gae [0] [2] [1, 5] 1 1).getD ([], [])).2.getD 0 0
        = (List.getD [(2 : ℚ)] 0 0
            + 1 * (1 - List.getD [(0 : ℚ)] 0 0) * List.getD [(1 : ℚ), 5] (0 + 1) 0
            - List.getD [(1 : ℚ), 5] 0 0)
          + 1 * 1 * (1 - List.getD [(0 : ℚ)] 0 0)
            * ((compute_gae [0] [2] [1, 5] 1 1).getD ([], [])).2.getD (0 + 1) 0
    ∧ ((compute_gae [0] [2] [1, 5] 1 1).getD ([], [])).1.getD 0 0
        = ((compute_gae [0] [2] [1, 5] 1 1).getD ([], [])).2.getD 0 0
          + List.getD [(1 : ℚ), 5] 0 0 :=
  compute_gae_backward_recursion.1 [0] [2] [1, 5] 1 1 0 (by decide) (by decide) (by decide)

/-- C3 (counterexample): with `pop_size = 2`, `top_ratio = 1/5` (so
`tops_num = round(0.4) = 0`) and `bottom_ratio = 1/2` (so
`bottoms_num = 1`), `exploit_and_explore` is NOT the identity: the slice
`indices[-0:]` selects the whole index list, so a donor is drawn from the
entire population and the bottom slot is replaced with a perturbed copy.
The sampling functions used are legal instances (`uniform` draws `pf/2 ∈
[-pf, pf]`, `choice` picks the first candidate). -/
theorem exploit_and_explore_tops_zero_not_identity :
    (pyRound (((2 : ℕ) : ℚ) * (1/5))).toNat = 0
    ∧ (exploit_and_explore ⟨2, 1/2, 1/5, 1/2, 10, 2⟩
        (fun _ pf => pf / 2) (fun _ l n => List.replicate n (l.headD 0)) 7
        [1, 2] [⟨10⟩, ⟨20⟩]
        ([⟨⟨0, 10, 0, 0⟩, 0⟩, ⟨⟨0, 20, 0, 0⟩, 0⟩] : List (WorkflowState ℚ ℚ ℚ))
        ⟨⟨0, 0, 0, 0⟩, 0⟩).1
      ≠ [⟨10⟩, ⟨20⟩] := by
  constructor
  · norm_num [pyRound]
  · norm_num [exploit_and_explore, pyRound, argsort, argsortInsert, pySliceTake,
      pySliceLast, prng_split3, prng_splitN, gather_read, scatter_write,
      exploit_and_explore_fn, apply_hyperparams_to_workflow_state,
      deepcopy_InjectStatefulHyperparamsState, HyperParamsDict.mk.injEq,
      List.range_succ, List.range_zero]

/-- C3 (amended): when `bottoms_num = round(pop_size * bottom_ratio) = 0`
the operator performs no replacement and returns the population
hyperparameters and all member workflow states unchanged, for every
population, fitness vector, key and sampling functions. -/
theorem exploit_and_explore_bottoms_zero_identity (config : PBTConfig)
    (uniform : ℕ → ℚ → ℚ) (choice : ℕ → List ℕ → ℕ → List ℕ) (key : ℕ)
    (pop_episode_returns : List ℚ) (pop : List HyperParamsDict)
    (pop_workflow_state : List (WorkflowState H I E)) (dflt : WorkflowState H I E)
    (h : pyRound ((config.pop_size : ℚ) * config.bottom_ratio) = 0) :
    exploit_and_explore config uniform choice key pop_episode_returns pop
      pop_workflow_state dflt = (pop, pop_workflow_state) := by
  simp [exploit_and_explore, h, pySliceTake, prng_splitN, scatter_write]

/-- Witness for amended C3: `pop_size = 4`, `bottom_ratio = 0` gives
`bottoms_num = 0`; the operator is the identity on a concrete population. -/
theorem exploit_and_explore_bottoms_zero_identity_witness :
    exploit_and_explore ⟨4, 0, 1/4, 1/10, 10, 2⟩
      (fun _ pf => pf) (fun _ l n => List.replicate n (l.headD 0)) 7
      [1, 2, 3, 4] [⟨1⟩, ⟨2⟩, ⟨3⟩, ⟨4⟩]
      ([⟨⟨0, 1, 0, 0⟩, 0⟩, ⟨⟨0, 2, 0, 0⟩, 0⟩] : List (WorkflowState ℚ ℚ ℚ))
      ⟨⟨0, 0, 0, 0⟩, 0⟩
    = ([⟨1⟩, ⟨2⟩, ⟨3⟩, ⟨4⟩],
       [⟨⟨0, 1, 0, 0⟩, 0⟩, ⟨⟨0, 2, 0, 0⟩, 0⟩]) :=
  exploit_and_explore_bottoms_zero_identity _ _ _ _ _ _ _ _ (by norm_num [pyRound])

/-- C5 (counterexample): with `perturb_factor = 1/2 ≠ 0` and the legal
uniform draw `u = 0 ∈ [-1/2, 1/2]`, the injected learning rate equals the
donor's value (`5 * (1 + 0) = 5`), so "differs from the donor's unless
`perturb_factor = 0`" fails. -/
theorem exploit_explore_fn_zero_draw_keeps_lr :
    (-(1/2 : ℚ) ≤ 0 ∧ (0 : ℚ) ≤ 1/2 ∧ (1/2 : ℚ) ≠ 0)
    ∧ (exploit_and_explore_fn (H := Unit) (I := Unit) (E := Unit)
        (fun _ _ => 0) (1/2) 3 ⟨5⟩ ⟨⟨7, 4, (), ()⟩, ()⟩).2.opt_state.learning_rate
      = (5 : ℚ) := by
  refine ⟨⟨by norm_num, by norm_num, by norm_num⟩, ?_⟩
  norm_num [exploit_and_explore_fn, apply_hyperparams_to_workflow_state,
    deepcopy_InjectStatefulHyperparamsState]

/-- C5 (amended): for every replaced member, the copied optimizer state
keeps the donor's iteration counter, hyperparameter schedule states and
inner (momentum) state, and the rest of the workflow state, while the
injected `learning_rate` equals the donor's value times `(1 + u)` for the
uniform draw `u ∈ [-perturb_factor, perturb_factor]`; when
`perturb_factor = 0` it equals the donor's value, and it differs from the
donor's value whenever the draw and the donor's value are both nonzero. -/
theorem exploit_explore_fn_surgical_injection (uniform : ℕ → ℚ → ℚ) (pf : ℚ)
    (key : ℕ) (top : HyperParamsDict) (top_wf : WorkflowState H I E)
    (hlo : -pf ≤ uniform key pf) (hhi : uniform key pf ≤ pf) :
    (exploit_and_explore_fn uniform pf key top top_wf).2.opt_state.count
        = top_wf.opt_state.count
    ∧ (exploit_and_explore_fn uniform pf key top top_wf).2.opt_state.hyperparams_states
        = top_wf.opt_state.hyperparams_states
    ∧ (exploit_and_explore_fn uniform pf key top top_wf).2.opt_state.inner_state
        = top_wf.opt_state.inner_state
    ∧ (exploit_and_explore_fn uniform pf key top top_wf).2.rest = top_wf.rest
    ∧ (exploit_and_explore_fn uniform pf key top top_wf).2.opt_state.learning_rate
        = top.lr * (1 + uniform key pf)
    ∧ (exploit_and_explore_fn uniform pf key top top_wf).1.lr
        = top.lr * (1 + uniform key pf)
    ∧ (pf = 0 →
        (exploit_and_explore_fn uniform pf key top top_wf).2.opt_state.learning_rate
          = top.lr)
    ∧ (uniform key pf ≠ 0 → top.lr ≠ 0 →
        (exploit_and_explore_fn uniform pf key top top_wf).2.opt_state.learning_rate
          ≠ top.lr) := by
  refine ⟨rfl, rfl, rfl, rfl, rfl, rfl, ?_, ?_⟩
  · intro hpf
    subst hpf
    have hz : uniform key 0 = 0 := le_antisymm hhi (by simpa using hlo)
    simp [exploit_and_explore_fn, apply_hyperparams_to_workflow_state,
      deepcopy_InjectStatefulHyperparamsState, hz]
  · intro hune hlr heq
    simp only [exploit_and_explore_fn, apply_hyperparams_to_workflow_state,
      deepcopy_InjectStatefulHyperparamsState] at heq
    have hprod : top.lr * uniform key pf = 0 := by ring_nf at heq ⊢; linarith
    rcases mul_eq_zero.mp hprod with h | h
    · exact hlr h
    · exact hune h

/-- Witness for amended C5: donor `lr = 5`, `perturb_factor = 1/2`, draw
`u = 1/4 ∈ [-1/2, 1/2]`. -/
theorem exploit_explore_fn_surgical_injection_witness :
    (exploit_and_explore_fn (H := Unit) (I := Unit) (E := Unit)
        (fun _ _ => 1/4) (1/2) 3 ⟨5⟩ ⟨⟨7, 4, (), ()⟩, ()⟩).2.opt_state.count = 7
    ∧ (exploit_and_explore_fn (H := Unit) (I := Unit) (E := Unit)
        (fun _ _ => 1/4) (1/2) 3 ⟨5⟩ ⟨⟨7, 4, (), ()⟩, ()⟩).2.opt_state.hyperparams_states
        = ()
    ∧ (exploit_and_explore_fn (H := Unit) (I := Unit) (E := Unit)
        (fun _ _ => 1/4) (1/2) 3 ⟨5⟩ ⟨⟨7, 4, (), ()⟩, ()⟩).2.opt_state.inner_state = ()
    ∧ (exploit_and_explore_fn (H := Unit) (I := Unit) (E := Unit)
        (fun _ _ => 1/4) (1/2) 3 ⟨5⟩ ⟨⟨7, 4, (), ()⟩, ()⟩).2.rest = ()
    ∧ (exploit_and_explore_fn (H := Unit) (I := Unit) (E := Unit)
        (fun _ _ => 1/4) (1/2) 3 ⟨5⟩ ⟨⟨7, 4, (), ()⟩, ()⟩).2.opt_state.learning_rate
        = 5 * (1 + (1/4 : ℚ))
    ∧ (exploit_and_explore_fn (H := Unit) (I := Unit) (E := Unit)
        (fun _ _ => 1/4) (1/2) 3 ⟨5⟩ ⟨⟨7, 4, (), ()⟩, ()⟩).1.lr = 5 * (1 + (1/4 : ℚ))
    ∧ ((1/2 : ℚ) = 0 →
        (exploit_and_explore_fn (H := Unit) (I := Unit) (E := Unit)
          (fun _ _ => 1/4) (1/2) 3 ⟨5⟩ ⟨⟨7, 4, (), ()⟩, ()⟩).2.opt_state.learning_rate = 5)
    ∧ ((1/4 : ℚ) ≠ 0 → (5 : ℚ) ≠ 0 →
        (exploit_and_explore_fn (H := Unit) (I := Unit) (E := Unit)
          (fun _ _ => 1/4) (1/2) 3 ⟨5⟩ ⟨⟨7, 4, (), ()⟩, ()⟩).2.opt_state.learning_rate
          ≠ 5) :=
  exploit_explore_fn_surgical_injection (fun _ _ => 1/4) (1/2) 3 ⟨5⟩
    ⟨⟨7, 4, (), ()⟩, ()⟩ (by norm_num) (by norm_num)

/-- C6 (counterexample): with `pop_size = 5`, `bottom_ratio = 1/5`
(`bottoms_num = 1`) and `top_ratio = 1/10` (`tops_num = round(0.5) = 0`,
banker's rounding), the claimed donor-candidate set — the `0`
highest-fitness indices — is empty, yet the operator still replaces the
bottom slot: `indices[-0:]` is the whole index list (length 5), the
head-choice picks index `1`, the LOWEST-fitness member, and slot `1`
receives its perturbed copy, so the claim's universal sentence fails. -/
theorem exploit_and_explore_rank_partition_cex :
    ee_tops_num ⟨5, 1/5, 1/10, 1/2, 10, 2⟩ = 0
    ∧ (ee_tops_indices ⟨5, 1/5, 1/10, 1/2, 10, 2⟩ [5, 1, 9, 3, 7]).length = 5
    ∧ (ee_choice_indices ⟨5, 1/5, 1/10, 1/2, 10, 2⟩
        (fun _ l n => List.replicate n (l.headD 0)) 7 [5, 1, 9, 3, 7]).getD 0 0 = 1
    ∧ (exploit_and_explore ⟨5, 1/5, 1/10, 1/2, 10, 2⟩ (fun _ pf => pf)
        (fun _ l n => List.replicate n (l.headD 0)) 7 [5, 1, 9, 3, 7]
        [⟨2⟩, ⟨4⟩, ⟨8⟩, ⟨16⟩, ⟨32⟩]
        ([⟨⟨0, 2, 0, 0⟩, 0⟩, ⟨⟨0, 4, 0, 0⟩, 0⟩, ⟨⟨0, 8, 0, 0⟩, 0⟩,
          ⟨⟨0, 16, 0, 0⟩, 0⟩, ⟨⟨0, 32, 0, 0⟩, 0⟩] : List (WorkflowState ℚ ℚ ℚ))
        ⟨⟨0, 0, 0, 0⟩, 0⟩).1
      = [⟨2⟩, ⟨4 * (1 + 1/2)⟩, ⟨8⟩, ⟨16⟩, ⟨32⟩]
    ∧ ([⟨2⟩, ⟨4 * (1 + 1/2)⟩, ⟨8⟩, ⟨16⟩, ⟨32⟩] : List HyperParamsDict)
        ≠ [⟨2⟩, ⟨4⟩, ⟨8⟩, ⟨16⟩, ⟨32⟩] := by
  refine ⟨by norm_num [ee_tops_num, pyRound], ?_, ?_, ?_, ?_⟩
  · norm_num [ee_tops_indices, ee_tops_num, pyRound, pySliceLast, argsort,
      argsortInsert, List.range_succ, List.range_zero]
  · norm_num [ee_choice_indices, ee_tops_indices, ee_tops_num, ee_bottoms_indices,
      ee_bottoms_num, pyRound, pySliceLast, pySliceTake, argsort, argsortInsert,
      prng_split3, List.range_succ, List.range_zero]
  · norm_num [exploit_and_explore, pyRound, argsort, argsortInsert, pySliceTake,
      pySliceLast, prng_split3, prng_splitN, gather_read, scatter_write,
      exploit_and_explore_fn, apply_hyperparams_to_workflow_state,
      deepcopy_InjectStatefulHyperparamsState, List.range_succ, List.range_zero]
  · norm_num [HyperParamsDict.mk.injEq]

/-- C6 (amended): for every fitness vector (population sizes consistent,
`tops_num ≥ 1`, and the sampling `choice` respecting its contract on
nonempty candidate lists), `exploit_and_explore` sorts fitness ascending
(`argsort` is a sorted permutation of the index range), takes the
`bottoms_num` lowest-fitness indices as replacement targets and the
`tops_num` highest-fitness indices as donor candidates (every bottom
fitness ≤ every top fitness when the partitions fit in the population),
and writes into each bottom slot a copy of a randomly chosen donor's
hyperparameters and workflow state (perturbed lr injected), leaving every
other slot unchanged; in particular for fitness `[5,1,9,3,7]` with
`bottom_ratio = top_ratio = 1/5` and `pop_size = 5`, the member with
fitness `9` (index 2) is the only donor candidate and its state is copied
exactly before perturbation (donor `count`, `hyperparams_states`,
`inner_state` kept) into the slot of the member with fitness `1` (index 1). -/
theorem exploit_and_explore_rank_partition :
    (∀ (config : PBTConfig) (uniform : ℕ → ℚ → ℚ)
      (choice : ℕ → List ℕ → ℕ → List ℕ) (key : ℕ) (rets : List ℚ)
      (pop : List HyperParamsDict) (wf : List (WorkflowState H I E))
      (dflt : WorkflowState H I E),
      config.pop_size = rets.length →
      pop.length = rets.length →
      wf.length = rets.length →
      1 ≤ ee_tops_num config →
      (∀ k l n, l ≠ [] → (choice k l n).length = n ∧ ∀ x ∈ choice k l n, x ∈ l) →
      ((argsort rets).Perm (List.range rets.length)
      ∧ ((argsort rets).map (fun i => rets.getD i 0)).Pairwise (· ≤ ·)
      ∧ (ee_bottoms_indices config rets).length = min (ee_bottoms_num config) rets.length
      ∧ (ee_tops_indices config rets).length = min (ee_tops_num config) rets.length
      ∧ (ee_bottoms_num config + ee_tops_num config ≤ rets.length →
          ∀ b ∈ ee_bottoms_indices config rets, ∀ t ∈ ee_tops_indices config rets,
            rets.getD b 0 ≤ rets.getD t 0)
      ∧ (∀ j, j < (ee_bottoms_indices config rets).length →
          (ee_choice_indices config choice key rets).getD j 0 ∈ ee_tops_indices config rets
          ∧ (exploit_and_explore config uniform choice key rets pop wf dflt).1.getD
              ((ee_bottoms_indices config rets).getD j 0) ⟨0⟩
            = ⟨(pop.getD ((ee_choice_indices config choice key rets).getD j 0) ⟨0⟩).lr
                * (1 + uniform ((ee_explore_keys config key rets).getD j 0)
                    config.perturb_factor)⟩
          ∧ (exploit_and_explore config uniform choice key rets pop wf dflt).2.getD
              ((ee_bottoms_indices config rets).getD j 0) dflt
            = apply_hyperparams_to_workflow_state
                ⟨(pop.getD ((ee_choice_indices config choice key rets).getD j 0) ⟨0⟩).lr
                  * (1 + uniform ((ee_explore_keys config key rets).getD j 0)
                      config.perturb_factor)⟩
                (wf.getD ((ee_choice_indices config choice key rets).getD j 0) dflt))
      ∧ (∀ i, i ∉ ee_bottoms_indices config rets →
          (exploit_and_explore config uniform choice key rets pop wf dflt).1.getD i ⟨0⟩
            = pop.getD i ⟨0⟩
          ∧ (exploit_and_explore config uniform choice key rets pop wf dflt).2.getD i dflt
            = wf.getD i dflt)))
    ∧ (∀ (hp0 hp1 hp2 hp3 hp4 : HyperParamsDict)
      (w0 w1 w2 w3 w4 dflt : WorkflowState H I E)
      (uniform : ℕ → ℚ → ℚ) (choice : ℕ → List ℕ → ℕ → List ℕ)
      (key : ℕ) (pf : ℚ) (ws ps : ℕ) (u : ℚ),
      (choice (prng_split3 key).2.1 [2] 1).length = 1 →
      (∀ x ∈ choice (prng_split3 key).2.1 [2] 1, x ∈ ([2] : List ℕ)) →
      u = uniform ((prng_splitN (prng_split3 key).2.2 1).headD 0) pf →
      (exploit_and_explore ⟨5, 1/5, 1/5, pf, ws, ps⟩ uniform choice key
        [5, 1, 9, 3, 7] [hp0, hp1, hp2, hp3, hp4] [w0, w1, w2, w3, w4] dflt
      = ([hp0, ⟨hp2.lr * (1 + u)⟩, hp2, hp3, hp4],
         [w0, apply_hyperparams_to_workflow_state ⟨hp2.lr * (1 + u)⟩ w2, w2, w3, w4])
      ∧ (apply_hyperparams_to_workflow_state ⟨hp2.lr * (1 + u)⟩ w2).opt_state.count
          = w2.opt_state.count
      ∧ (apply_hyperparams_to_workflow_state ⟨hp2.lr * (1 + u)⟩ w2).opt_state.hyperparams_states
          = w2.opt_state.hyperparams_states
      ∧ (apply_hyperparams_to_workflow_state ⟨hp2.lr * (1 + u)⟩ w2).opt_state.inner_state
          = w2.opt_state.inner_state)) := by
  constructor
  · intro config uniform choice key rets pop wf dflt hP hpop hwf htop hchoice
    have hperm := argsort_perm rets
    have hlen_idx : (argsort rets).length = rets.length := by
      rw [hperm.length_eq, List.length_range]
    have hnodup : (argsort rets).Nodup := hperm.nodup_iff.mpr (List.nodup_range _)
    have hmem_lt : ∀ x ∈ argsort rets, x < rets.length := by
      intro x hx
      exact List.mem_range.mp (hperm.mem_iff.mp hx)
    have hblen : (ee_bottoms_indices config rets).length
        = min (ee_bottoms_num config) rets.length := by
      rw [ee_bottoms_indices, pySliceTake, List.length_take, hlen_idx]
    have htlen : (ee_tops_indices config rets).length
        = min (ee_tops_num config) rets.length := by
      rw [ee_tops_indices, pySliceLast, if_neg (by omega : ¬ ee_tops_num config = 0),
        List.length_drop, hlen_idx]
      omega
    have hbnd : (ee_bottoms_indices config rets).Nodup := by
      rw [ee_bottoms_indices, pySliceTake]
      exact hnodup.sublist (List.take_sublist _ _)
    have hbmem : ∀ x ∈ ee_bottoms_indices config rets, x < rets.length := by
      intro x hx
      rw [ee_bottoms_indices, pySliceTake] at hx
      exact hmem_lt x (List.mem_of_mem_take hx)
    refine ⟨hperm, ?_, hblen, htlen, ?_, ?_, ?_⟩
    · exact List.pairwise_map.mpr (argsort_sorted rets)
    · intro hno b hb t ht
      have h2 : ((argsort rets).take (ee_bottoms_num config)
          ++ (argsort rets).drop (ee_bottoms_num config)).Pairwise
          (fun a b => rets.getD a 0 ≤ rets.getD b 0) := by
        rw [List.take_append_drop]
        exact argsort_sorted rets
      have hrel := (List.pairwise_append.mp h2).2.2
      have hb2 : b ∈ (argsort rets).take (ee_bottoms_num config) := by
        rw [ee_bottoms_indices, pySliceTake] at hb
        exact hb
      have ht2 : t ∈ (argsort rets).drop (ee_bottoms_num config) := by
        rw [ee_tops_indices, pySliceLast, if_neg (by omega : ¬ ee_tops_num config = 0)]
          at ht
        have heq : (argsort rets).drop ((argsort rets).length - ee_tops_num config)
            = ((argsort rets).drop (ee_bottoms_num config)).drop
                ((argsort rets).length - ee_tops_num config - ee_bottoms_num config) := by
          rw [List.drop_drop]
          congr 1
          omega
        rw [heq] at ht
        exact List.mem_of_mem_drop ht
      exact hrel b hb2 t ht2
    · intro j hj
      have hP1 : 1 ≤ rets.length := by omega
      have htopsne : ee_tops_indices config rets ≠ [] := by
        apply List.ne_nil_of_length_pos
        omega
      obtain ⟨hclen, hcmem⟩ := hchoice (prng_split3 key).2.1 (ee_tops_indices config rets)
        (ee_bottoms_indices config rets).length htopsne
      have hcl : (ee_choice_indices config choice key rets).length
          = (ee_bottoms_indices config rets).length := by
        rw [ee_choice_indices]
        exact hclen
      have hdon : (ee_choice_indices config choice key rets).getD j 0
          ∈ ee_tops_indices config rets := by
        apply hcmem
        have hin := getD_mem (ee_choice_indices config choice key rets) j 0 (by omega)
        rw [ee_choice_indices] at hin
        exact hin
      have heklen : (ee_explore_keys config key rets).length
          = (ee_bottoms_indices config rets).length := by
        rw [ee_explore_keys, prng_splitN, List.length_map, List.length_range]
      have hghplen : (gather_read (ee_choice_indices config choice key rets) pop ⟨0⟩).length
          = (ee_bottoms_indices config rets).length := by
        rw [gather_read, List.length_map, hcl]
      have hgwflen : (gather_read (ee_choice_indices config choice key rets) wf dflt).length
          = (ee_bottoms_indices config rets).length := by
        rw [gather_read, List.length_map, hcl]
      have hnews_len : (ee_news config uniform choice key rets pop wf dflt).length
          = (ee_bottoms_indices config rets).length := by
        rw [ee_news, List.length_zipWith, List.length_zip, heklen, hghplen, hgwflen]
        omega
      have hblt : (ee_bottoms_indices config rets).getD j 0 < pop.length := by
        rw [hpop]
        exact hbmem _ (getD_mem _ j 0 hj)
      have hwlt : (ee_bottoms_indices config rets).getD j 0 < wf.length := by
        rw [hwf]
        exact hbmem _ (getD_mem _ j 0 hj)
      have hnews_getD : (ee_news config uniform choice key rets pop wf dflt).getD j
          (⟨0⟩, dflt)
          = (⟨(pop.getD ((ee_choice_indices config choice key rets).getD j 0) ⟨0⟩).lr
                * (1 + uniform ((ee_explore_keys config key rets).getD j 0)
                    config.perturb_factor)⟩,
             apply_hyperparams_to_workflow_state
                ⟨(pop.getD ((ee_choice_indices config choice key rets).getD j 0) ⟨0⟩).lr
                  * (1 + uniform ((ee_explore_keys config key rets).getD j 0)
                      config.perturb_factor)⟩
                (wf.getD ((ee_choice_indices config choice key rets).getD j 0) dflt)) := by
        rw [ee_news, zipWith_getD _ _ _ j (0 : ℕ)
          (((⟨0⟩ : HyperParamsDict), dflt) : HyperParamsDict × WorkflowState H I E)
          (((⟨0⟩ : HyperParamsDict), dflt) : HyperParamsDict × WorkflowState H I E)
          (by omega) (by rw [List.length_zip, hghplen, hgwflen]; omega)]
        rw [zip_getD _ _ j (⟨0⟩ : HyperParamsDict) dflt (by omega) (by omega)]
        rw [gather_read, gather_read,
          map_getD _ _ j (0 : ℕ) (⟨0⟩ : HyperParamsDict) (by omega),
          map_getD _ _ j (0 : ℕ) dflt (by omega)]
        rfl
      refine ⟨hdon, ?_, ?_⟩
      · have h1 : (exploit_and_explore config uniform choice key rets pop wf dflt).1
            = scatter_write (ee_bottoms_indices config rets) pop
                ((ee_news config uniform choice key rets pop wf dflt).map Prod.fst) := by
          rw [exploit_and_explore_eq]
        rw [h1, scatter_write_getD_mem _ _ _ j _ hbnd
          (by rw [List.length_map, hnews_len]) hj hblt]
        rw [map_getD Prod.fst _ j
          (((⟨0⟩ : HyperParamsDict), dflt) : HyperParamsDict × WorkflowState H I E)
          (⟨0⟩ : HyperParamsDict) (by omega), hnews_getD]
      · have h2 : (exploit_and_explore config uniform choice key rets pop wf dflt).2
            = scatter_write (ee_bottoms_indices config rets) wf
                ((ee_news config uniform choice key rets pop wf dflt).map Prod.snd) := by
          rw [exploit_and_explore_eq]
        rw [h2, scatter_write_getD_mem _ _ _ j _ hbnd
          (by rw [List.length_map, hnews_len]) hj hwlt]
        rw [map_getD Prod.snd _ j
          (((⟨0⟩ : HyperParamsDict), dflt) : HyperParamsDict × WorkflowState H I E)
          dflt (by omega), hnews_getD]
    · intro i hi
      constructor
      · have h1 : (exploit_and_explore config uniform choice key rets pop wf dflt).1
            = scatter_write (ee_bottoms_indices config rets) pop
                ((ee_news config uniform choice key rets pop wf dflt).map Prod.fst) := by
          rw [exploit_and_explore_eq]
        rw [h1, scatter_write_getD_not_mem _ _ _ _ _ hi]
      · have h2 : (exploit_and_explore config uniform choice key rets pop wf dflt).2
            = scatter_write (ee_bottoms_indices config rets) wf
                ((ee_news config uniform choice key rets pop wf dflt).map Prod.snd) := by
          rw [exploit_and_explore_eq]
        rw [h2, scatter_write_getD_not_mem _ _ _ _ _ hi]
  · intro hp0 hp1 hp2 hp3 hp4 w0 w1 w2 w3 w4 dflt uniform choice key pf ws ps u
      hlen hmem hu
    refine ⟨?_, rfl, rfl, rfl⟩
    have hc : choice (prng_split3 key).2.1 [2] 1 = [2] := by
      obtain ⟨x, hx⟩ := List.length_eq_one.mp hlen
      have hx2 := hmem x (by simp [hx])
      simp only [List.mem_singleton] at hx2
      rw [hx, hx2]
    simp only [prng_split3] at hc hu
    subst hu
    norm_num [exploit_and_explore, pyRound, argsort, argsortInsert, pySliceTake,
      pySliceLast, prng_split3, prng_splitN, gather_read, scatter_write,
      exploit_and_explore_fn, hc, List.range_succ, List.range_zero]

/-- Witness for C6: both conjuncts instantiated concretely — the general
part at fitness `[5,1,9,3,7]` with a head-choice sampler (its Perm
consequence), and the concrete donor-copy instance with `uniform`
drawing `1/4` and `choice` returning the only candidate `[2]`. -/
theorem exploit_and_explore_rank_partition_witness :
    (argsort [(5 : ℚ), 1, 9, 3, 7]).Perm (List.range 5)
    ∧ (exploit_and_explore (H := Unit) (I := Unit) (E := Unit)
        ⟨5, 1/5, 1/5, 1/2, 10, 2⟩ (fun _ _ => 1/4) (fun _ _ _ => [2]) 11
        [5, 1, 9, 3, 7] [⟨1⟩, ⟨2⟩, ⟨3⟩, ⟨4⟩, ⟨6⟩]
        [⟨⟨10, 1, (), ()⟩, ()⟩, ⟨⟨20, 2, (), ()⟩, ()⟩, ⟨⟨30, 3, (), ()⟩, ()⟩,
         ⟨⟨40, 4, (), ()⟩, ()⟩, ⟨⟨60, 6, (), ()⟩, ()⟩] ⟨⟨0, 0, (), ()⟩, ()⟩
      = ([⟨1⟩, ⟨3 * (1 + (1/4 : ℚ))⟩, ⟨3⟩, ⟨4⟩, ⟨6⟩],
         [⟨⟨10, 1, (), ()⟩, ()⟩,
          apply_hyperparams_to_workflow_state ⟨3 * (1 + (1/4 : ℚ))⟩ ⟨⟨30, 3, (), ()⟩, ()⟩,
          ⟨⟨30, 3, (), ()⟩, ()⟩, ⟨⟨40, 4, (), ()⟩, ()⟩, ⟨⟨60, 6, (), ()⟩, ()⟩])
      ∧ (apply_hyperparams_to_workflow_state ⟨3 * (1 + (1/4 : ℚ))⟩
          (⟨⟨30, 3, (), ()⟩, ()⟩ : WorkflowState Unit Unit Unit)).opt_state.count = 30
      ∧ (apply_hyperparams_to_workflow_state ⟨3 * (1 + (1/4 : ℚ))⟩
          (⟨⟨30, 3, (), ()⟩, ()⟩ : WorkflowState Unit Unit Unit)).opt_state.hyperparams_states
          = ()
      ∧ (apply_hyperparams_to_workflow_state ⟨3 * (1 + (1/4 : ℚ))⟩
          (⟨⟨30, 3, (), ()⟩, ()⟩ : WorkflowState Unit Unit Unit)).opt_state.inner_state
          = ()) :=
  ⟨((exploit_and_explore_rank_partition (H := Unit) (I := Unit) (E := Unit)).1
      ⟨5, 1/5, 1/5, 1/2, 10, 2⟩ (fun _ _ => 1/4)
      (fun _ l n => List.replicate n (l.headD 0)) 11 [5, 1, 9, 3, 7]
      [⟨1⟩, ⟨2⟩, ⟨3⟩, ⟨4⟩, ⟨6⟩]
      [⟨⟨10, 1, (), ()⟩, ()⟩, ⟨⟨20, 2, (), ()⟩, ()⟩, ⟨⟨30, 3, (), ()⟩, ()⟩,
       ⟨⟨40, 4, (), ()⟩, ()⟩, ⟨⟨60, 6, (), ()⟩, ()⟩] ⟨⟨0, 0, (), ()⟩, ()⟩
      rfl rfl rfl (by norm_num [ee_tops_num, pyRound])
      (by
        intro k l n hl
        refine ⟨List.length_replicate _ _, ?_⟩
        intro x hx
        rw [List.eq_of_mem_replicate hx]
        cases l with
        | nil => exact absurd rfl hl
        | cons a t => exact List.mem_cons_self a t)).1,
   (exploit_and_explore_rank_partition (H := Unit) (I := Unit) (E := Unit)).2
    ⟨1⟩ ⟨2⟩ ⟨3⟩ ⟨4⟩ ⟨6⟩
    ⟨⟨10, 1, (), ()⟩, ()⟩ ⟨⟨20, 2, (), ()⟩, ()⟩ ⟨⟨30, 3, (), ()⟩, ()⟩
    ⟨⟨40, 4, (), ()⟩, ()⟩ ⟨⟨60, 6, (), ()⟩, ()⟩ ⟨⟨0, 0, (), ()⟩, ()⟩
    (fun _ _ => 1/4) (fun _ _ _ => [2]) 11 (1/2) 10 2 (1/4)
    (by decide) (by decide) rfl⟩

/-- C7: while `iterations + 1 ≤ ceil(warmup_steps / per_iter_workflow_steps)`
the warmup conditional of `PBTWorkflow.step` takes the dummy branch and
returns the population hyperparameters and workflow states unchanged; for
`warmup_steps = 10`, `per_iter_workflow_steps = 2` the threshold is `5`,
so exploit/explore does not fire until the iteration number
`iterations + 1` exceeds `5`; and both branches return outputs of
identical structure (same population lengths) at every iteration. -/
theorem pbt_warmup_gate_spec (config : PBTConfig) (uniform : ℕ → ℚ → ℚ)
    (choice : ℕ → List ℕ → ℕ → List ℕ) (iterations key : ℕ) (rets : List ℚ)
    (pop : List HyperParamsDict) (wf : List (WorkflowState H I E))
    (dflt : WorkflowState H I E)
    (h : iterations + 1 ≤ mathCeilDiv config.warmup_steps config.per_iter_workflow_steps) :
    pbt_warmup_or_exploit config uniform choice iterations key rets pop wf dflt
      = (pop, wf)
    ∧ mathCeilDiv 10 2 = 5
    ∧ (∀ iter2 key2,
        (pbt_warmup_or_exploit config uniform choice iter2 key2 rets pop wf dflt).1.length
          = pop.length
        ∧ (pbt_warmup_or_exploit config uniform choice iter2 key2 rets pop wf dflt).2.length
          = wf.length) := by
  refine ⟨by simp [pbt_warmup_or_exploit, h], by norm_num [mathCeilDiv]; rfl, ?_⟩
  intro iter2 key2
  by_cases h2 : iter2 + 1 ≤ mathCeilDiv config.warmup_steps config.per_iter_workflow_steps
  · simp [pbt_warmup_or_exploit, h2]
  · simp [pbt_warmup_or_exploit, h2,
      (exploit_and_explore_length config uniform choice
        (prng_split2 key2).2 rets pop wf dflt).1,
      (exploit_and_explore_length config uniform choice
        (prng_split2 key2).2 rets pop wf dflt).2]

/-- Witness for C7: `warmup_steps = 10`, `per_iter_workflow_steps = 2`,
first iteration (`iterations = 0`, so iteration number `1 ≤ 5`). -/
theorem pbt_warmup_gate_spec_witness :
    pbt_warmup_or_exploit (H := Unit) (I := Unit) (E := Unit)
      ⟨4, 1/4, 1/4, 1/2, 10, 2⟩ (fun _ _ => 0) (fun _ _ _ => [0]) 0 9
      [1, 2] [⟨1⟩, ⟨2⟩] [⟨⟨0, 1, (), ()⟩, ()⟩, ⟨⟨0, 2, (), ()⟩, ()⟩] ⟨⟨0, 0, (), ()⟩, ()⟩
      = ([⟨1⟩, ⟨2⟩], [⟨⟨0, 1, (), ()⟩, ()⟩, ⟨⟨0, 2, (), ()⟩, ()⟩])
    ∧ mathCeilDiv 10 2 = 5
    ∧ (∀ iter2 key2,
        (pbt_warmup_or_exploit (H := Unit) (I := Unit) (E := Unit)
          ⟨4, 1/4, 1/4, 1/2, 10, 2⟩ (fun _ _ => 0) (fun _ _ _ => [0]) iter2 key2
          [1, 2] [⟨1⟩, ⟨2⟩] [⟨⟨0, 1, (), ()⟩, ()⟩, ⟨⟨0, 2, (), ()⟩, ()⟩]
          ⟨⟨0, 0, (), ()⟩, ()⟩).1.length
          = List.length [(⟨1⟩ : HyperParamsDict), ⟨2⟩]
        ∧ (pbt_warmup_or_exploit (H := Unit) (I := Unit) (E := Unit)
          ⟨4, 1/4, 1/4, 1/2, 10, 2⟩ (fun _ _ => 0) (fun _ _ _ => [0]) iter2 key2
          [1, 2] [⟨1⟩, ⟨2⟩] [⟨⟨0, 1, (), ()⟩, ()⟩, ⟨⟨0, 2, (), ()⟩, ()⟩]
          ⟨⟨0, 0, (), ()⟩, ()⟩).2.length
          = List.length [(⟨⟨0, 1, (), ()⟩, ()⟩ : WorkflowState Unit Unit Unit),
              ⟨⟨0, 2, (), ()⟩, ()⟩]) :=
  pbt_warmup_gate_spec ⟨4, 1/4, 1/4, 1/2, 10, 2⟩ (fun _ _ => 0) (fun _ _ _ => [0]) 0 9
    [1, 2] [⟨1⟩, ⟨2⟩] [⟨⟨0, 1, (), ()⟩, ()⟩, ⟨⟨0, 2, (), ()⟩, ()⟩] ⟨⟨0, 0, (), ()⟩, ()⟩
    (by norm_num [mathCeilDiv])

end EvoRL
